import Mathlib

/-!
Verification of the rectangle bin-packing core (`src/packer.rs`) of the
image-packer repository.  The Rust code is shallowly embedded: `usize`
becomes `Nat` (all subtractions in the source are guarded by comparisons,
so truncated subtraction agrees with machine behaviour), `Vec` becomes
`List`, and the two nested `BTreeMap`s of the free-space index become
association lists kept sorted in strictly ascending key order, so that
list order coincides with the ascending iteration order of a `BTreeMap`.
Fallible code returns `Except String`.
-/

namespace ImagePacker

/-- Embeds `MAX_TEXTURE_SIZE` from `src/packer.rs`. -/
def MAX_TEXTURE_SIZE : Nat := 4096

/-- Embeds `struct Rect`. `size = (w, h)` and `position = (x, y)` stand for
the `[usize; 2]` arrays of the source. -/
structure Rect where
  size : Nat × Nat
  position : Nat × Nat
  deriving DecidableEq, Repr

/-- Embeds `Rect::has_intersection` literally: the doubled-centre distance
test, with the absolute difference computed by branching as in the source. -/
def Rect.has_intersection (self other : Rect) : Bool :=
  let w := other.size.1
  let h := other.size.2
  let x := other.position.1
  let y := other.position.2
  let rw := self.size.1
  let rh := self.size.2
  let rx := self.position.1
  let ry := self.position.2
  let cx := x * 2 + w
  let cy := y * 2 + h
  let rcx := rx * 2 + rw
  let rcy := ry * 2 + rh
  let dx := if cx ≥ rcx then cx - rcx else rcx - cx
  let dy := if cy ≥ rcy then cy - rcy else rcy - cy
  decide (dx < w + rw) && decide (dy < h + rh)

/-- Embeds `Rect::include` (renamed: `include` is a Lean keyword). -/
def Rect.includes (self other : Rect) : Bool :=
  let w := other.size.1
  let h := other.size.2
  let x := other.position.1
  let y := other.position.2
  let rx := self.position.1
  let ry := self.position.2
  let rw := self.size.1
  let rh := self.size.2
  decide (rx ≤ x ∧ x + w ≤ rx + rw ∧ ry ≤ y ∧ y + h ≤ ry + rh)

/-- Embeds `Rect::divide`: the four conditional strips (left, right, top,
bottom) pushed in source order, then the whole-rect fallback when no strip
applied and the rectangles do not intersect. -/
def Rect.divide (self other : Rect) : List Rect :=
  let w := other.size.1
  let h := other.size.2
  let x := other.position.1
  let y := other.position.2
  let rx := self.position.1
  let ry := self.position.2
  let rw := self.size.1
  let rh := self.size.2
  let rects : List Rect := []
  let rects := if rx < x ∧ x < rx + rw then
    rects ++ [⟨(x - rx, rh), (rx, ry)⟩] else rects
  let rects := if rx < x + w ∧ x + w < rx + rw then
    rects ++ [⟨(rx + rw - (x + w), rh), (x + w, ry)⟩] else rects
  let rects := if ry < y ∧ y < ry + rh then
    rects ++ [⟨(rw, y - ry), (rx, ry)⟩] else rects
  let rects := if ry < y + h ∧ y + h < ry + rh then
    rects ++ [⟨(rw, ry + rh - (y + h)), (rx, y + h)⟩] else rects
  if rects.isEmpty && !(self.has_intersection other) then
    [⟨self.size, self.position⟩]
  else
    rects

/-- Models `BTreeMap::range((Included(k), Unbounded))` on an association
list sorted by ascending key: the sub-list of entries with key `≥ k`. -/
def alistRange {β : Type} (k : Nat) (m : List (Nat × β)) : List (Nat × β) :=
  m.filter (fun p => decide (k ≤ p.1))

/-- Embeds `struct Regions`: `BTreeMap<usize, BTreeMap<usize, Vec<Rect>>>`
(area to width to rectangles) as a sorted association list of sorted
association lists. -/
structure Regions where
  regions : List (Nat × List (Nat × List Rect))
  deriving DecidableEq, Repr

/-- Embeds `Regions::new`. -/
def Regions.new (size : Nat × Nat) : Regions :=
  let area := size.1 * size.2
  let rect : Rect := ⟨size, (0, 0)⟩
  ⟨[(area, [(size.1, [rect])])]⟩

/-- Embeds `Regions::find_space`: iterate outer buckets ascending from
`area`, and inside each pick the first inner bucket with key at least the
queried width that is non-empty and satisfies the secondary area check,
returning its first rectangle. -/
def Regions.find_space (self : Regions) (size : Nat × Nat) : Option Rect :=
  let area := size.1 * size.2
  (alistRange area self.regions).findSome? (fun p =>
    ((alistRange size.1 p.2).find? (fun q =>
        !q.2.isEmpty && decide (size.1 ≤ q.1) && decide (size.2 * q.1 ≤ p.1))).bind
      (fun q => q.2.head?.map (fun r => ⟨r.size, r.position⟩)))

/-- Models the inner `get_mut`-or-`insert` step of `Regions::add`: append
the rectangle to the `Vec` at key `width`, creating the entry (in sorted
position, as a `BTreeMap` would) when missing. -/
def Regions.innerAdd (width : Nat) (r : Rect) :
    List (Nat × List Rect) → List (Nat × List Rect)
  | [] => [(width, [r])]
  | (k, v) :: rest =>
      if width < k then (width, [r]) :: (k, v) :: rest
      else if width = k then (k, v ++ [r]) :: rest
      else (k, v) :: Regions.innerAdd width r rest

/-- Models the outer `get_mut`-or-`insert` step of `Regions::add`. -/
def Regions.outerAdd (area width : Nat) (r : Rect) :
    List (Nat × List (Nat × List Rect)) → List (Nat × List (Nat × List Rect))
  | [] => [(area, [(width, [r])])]
  | (k, v) :: rest =>
      if area < k then (area, [(width, [r])]) :: (k, v) :: rest
      else if area = k then (k, Regions.innerAdd width r v) :: rest
      else (k, v) :: Regions.outerAdd area width r rest

/-- Embeds `Regions::add`: dominated-rectangle check over the buckets with
`area' ≥ area` and `width' ≥ width`, then insertion into bucket
`(area, width)`. -/
def Regions.add (self : Regions) (new_region : Rect) : Regions :=
  let area := new_region.size.1 * new_region.size.2
  let width := new_region.size.1
  if (alistRange area self.regions).any (fun p =>
      (alistRange width p.2).any (fun q =>
        q.2.any (fun a => a.includes new_region))) then
    self
  else
    ⟨Regions.outerAdd area width new_region self.regions⟩

/-- Models the stable insertion of one element for descending-by-area
order; together with `sortByAreaDesc` this reproduces the output of the
source's stable `sort_by` with comparator `(b.area).cmp(&(a.area))`
(any two stable sorts by the same key produce the same list). -/
def insertAreaDesc (r : Rect) : List Rect → List Rect
  | [] => [r]
  | x :: xs =>
      if x.size.1 * x.size.2 ≤ r.size.1 * r.size.2 then r :: x :: xs
      else x :: insertAreaDesc r xs

/-- Models the source's stable descending-by-area sort of the divided
strips in `Regions::exclude`. -/
def sortByAreaDesc : List Rect → List Rect
  | [] => []
  | x :: xs => insertAreaDesc x (sortByAreaDesc xs)

/-- Embeds `Regions::exclude`: remove every indexed rectangle intersecting
`other`, collecting the `divide` strips of the removed ones in iteration
order; prune emptied buckets; sort the strips by area descending; re-add
each via `Regions.add`. -/
def Regions.exclude (self : Regions) (other : Rect) : Regions :=
  let kept := self.regions.map (fun p =>
    (p.1, p.2.map (fun q =>
      (q.1, q.2.filter (fun r => !(r.has_intersection other))))))
  let divided := self.regions.flatMap (fun p =>
    p.2.flatMap (fun q =>
      q.2.flatMap (fun r =>
        if r.has_intersection other then r.divide other else [])))
  let pruned := (kept.map (fun p =>
    (p.1, p.2.filter (fun q => !q.2.isEmpty)))).filter (fun p => !p.2.isEmpty)
  (sortByAreaDesc divided).foldl Regions.add ⟨pruned⟩

/-- All rectangles currently stored in the free-space index, in iteration
order (a specification-side projection used to state properties). -/
def Regions.allRects (self : Regions) : List Rect :=
  self.regions.flatMap (fun p => p.2.flatMap (fun q => q.2))

/-- Embeds `struct Layout`. -/
structure Layout where
  index : Nat
  position : Nat × Nat
  rotated : Bool
  deriving DecidableEq, Repr

/-- Embeds `struct Packed`. -/
structure Packed where
  layouts : List Layout
  regions : Regions
  deriving DecidableEq, Repr

/-- Embeds `Packed::new`. -/
def Packed.new (texture_size : Nat × Nat) : Packed :=
  ⟨[], Regions.new texture_size⟩

/-- Embeds `struct Packer` (the configuration). -/
structure Packer where
  texture_size : Nat × Nat
  spacing : Nat
  enable_rotate : Bool
  deriving DecidableEq, Repr

/-- The padded footprint `size_with_spacing` computed at the top of
`Packer::try_pack_one`: `min(size + spacing, texture_size)` per axis. -/
def Packer.size_with_spacing (self : Packer) (size : Nat × Nat) : Nat × Nat :=
  (min (size.1 + self.spacing) self.texture_size.1,
   min (size.2 + self.spacing) self.texture_size.2)

/-- Embeds `Packer::try_pack_one`; the mutation of `packed` becomes the
second component of the result, the `bool` the first. -/
def Packer.try_pack_one (self : Packer) (packed : Packed) (index : Nat)
    (size : Nat × Nat) : Bool × Packed :=
  let sws := self.size_with_spacing size
  match packed.regions.find_space sws with
  | some space =>
      (true,
       ⟨packed.layouts ++ [⟨index, space.position, false⟩],
        packed.regions.exclude ⟨sws, space.position⟩⟩)
  | none =>
      if self.enable_rotate = true ∧ size.2 ≤ self.texture_size.1 ∧
          size.1 ≤ self.texture_size.2 then
        let rotated_size := self.size_with_spacing (size.2, size.1)
        match packed.regions.find_space rotated_size with
        | some space =>
            (true,
             ⟨packed.layouts ++ [⟨index, space.position, true⟩],
              packed.regions.exclude ⟨rotated_size, space.position⟩⟩)
        | none => (false, packed)
      else (false, packed)

/-- Embeds the `for (index, size)` loop of `Packer::pack`: validate each
size, try the current bin, and on failure freeze the current bin and retry
in a fresh one (discarding the retry's boolean, as the source does). -/
def Packer.packLoop (self : Packer) (sizes : List (Nat × Nat)) (index : Nat)
    (results : List Packed) (current : Packed) :
    Except String (List Packed × Packed) :=
  match sizes with
  | [] => .ok (results, current)
  | size :: rest =>
      if size.1 > self.texture_size.1 ∨ size.2 > self.texture_size.2 then
        .error "pack failed. image size larger than texture size."
      else
        let r := self.try_pack_one current index size
        if r.1 then
          self.packLoop rest (index + 1) results r.2
        else
          let next := Packed.new self.texture_size
          let r2 := self.try_pack_one next index size
          self.packLoop rest (index + 1) (results ++ [current]) r2.2

/-- Embeds `Packer::pack`: config validation, the placement loop, the
final push of a non-empty current bin, and the projection to layouts.
The dynamic parts of the source's `format!` error strings are omitted;
the static prefixes distinguish the three error kinds. -/
def Packer.pack (self : Packer) (image_sizes : List (Nat × Nat)) :
    Except String (List (List Layout)) :=
  if self.texture_size.1 = 0 ∨ self.texture_size.2 = 0 ∨
      self.texture_size.1 > MAX_TEXTURE_SIZE ∨
      self.texture_size.2 > MAX_TEXTURE_SIZE then
    .error "bad texture size."
  else if self.spacing ≥ self.texture_size.1 ∨
      self.spacing ≥ self.texture_size.2 then
    .error "spacing too large."
  else
    match self.packLoop image_sizes 0 [] (Packed.new self.texture_size) with
    | .error e => .error e
    | .ok (results, current) =>
        let results :=
          if !current.layouts.isEmpty then results ++ [current] else results
        .ok (results.map (fun a => a.layouts))

/-! Specification-side definitions used to state the claims. -/

/-- A point lies in a rectangle under the half-open reading
`[x, x+w) × [y, y+h)`. -/
def Rect.containsPt (self : Rect) (p : Nat × Nat) : Prop :=
  self.position.1 ≤ p.1 ∧ p.1 < self.position.1 + self.size.1 ∧
  self.position.2 ≤ p.2 ∧ p.2 < self.position.2 + self.size.2

instance (self : Rect) (p : Nat × Nat) : Decidable (self.containsPt p) := by
  unfold Rect.containsPt; infer_instance

/-- The configuration is accepted by `Packer::pack`'s validation. -/
def Packer.validCfg (self : Packer) : Prop :=
  0 < self.texture_size.1 ∧ 0 < self.texture_size.2 ∧
  self.texture_size.1 ≤ MAX_TEXTURE_SIZE ∧
  self.texture_size.2 ≤ MAX_TEXTURE_SIZE ∧
  self.spacing < self.texture_size.1 ∧ self.spacing < self.texture_size.2

instance (self : Packer) : Decidable self.validCfg := by
  unfold Packer.validCfg; infer_instance

/-- The effective (rotated-adjusted) size of a layout, as in the spec:
`e = l.rotated ? (sizes[l.index].h, sizes[l.index].w) : sizes[l.index]`. -/
def effSize (sizes : List (Nat × Nat)) (l : Layout) : Nat × Nat :=
  match sizes[l.index]? with
  | some sz => if l.rotated then (sz.2, sz.1) else sz
  | none => (0, 0)

/-- The clamped padded rectangle actually excluded by `try_pack_one` for a
layout: position plus `min(e + spacing, texture_size)` per axis. -/
def paddedRect (cfg : Packer) (sizes : List (Nat × Nat)) (l : Layout) : Rect :=
  ⟨cfg.size_with_spacing (effSize sizes l), l.position⟩

/-- The unclamped padded rectangle of the spec's non-overlap property:
position plus `(e.w + spacing, e.h + spacing)`. -/
def unclampedRect (cfg : Packer) (sizes : List (Nat × Nat)) (l : Layout) :
    Rect :=
  ⟨((effSize sizes l).1 + cfg.spacing, (effSize sizes l).2 + cfg.spacing),
   l.position⟩

/-- Free-space index states reachable from `Regions::new` by the core's
`add` (insert) and `exclude` (remove_intersecting) operations. -/
inductive Regions.Reachable (init : Nat × Nat) : Regions → Prop
  | base : Regions.Reachable init (Regions.new init)
  | add (s : Regions) (r : Rect) :
      Regions.Reachable init s → Regions.Reachable init (s.add r)
  | exclude (s : Regions) (r : Rect) :
      Regions.Reachable init s → Regions.Reachable init (s.exclude r)

/-- Bucket coherence of the free-space index: every rectangle stored in
bucket `(area, width)` actually has that width and that area (the index is
keyed by the rectangle's own `(w*h, w)` on every insertion path). -/
def bucketInv (rg : Regions) : Prop :=
  ∀ p ∈ rg.regions, ∀ q ∈ p.2, ∀ r ∈ q.2,
    r.size.1 = q.1 ∧ r.size.1 * r.size.2 = p.1

/-- The invariant maintained for a bin (`Packed`) during `Packer::pack`:
every layout references an input that fits the texture, every clamped
padded rectangle lies inside the texture, the clamped padded rectangles
are pairwise non-intersecting, the index is bucket-coherent, and every
free rectangle is positive, inside the texture, and disjoint from every
placed padded rectangle. -/
structure PackedInv (cfg : Packer) (sizes : List (Nat × Nat)) (pk : Packed) :
    Prop where
  layoutOk : ∀ l ∈ pk.layouts, ∃ sz, sizes[l.index]? = some sz ∧
      (effSize sizes l).1 ≤ cfg.texture_size.1 ∧
      (effSize sizes l).2 ≤ cfg.texture_size.2
  contained : ∀ l ∈ pk.layouts,
      l.position.1 + (paddedRect cfg sizes l).size.1 ≤ cfg.texture_size.1 ∧
      l.position.2 + (paddedRect cfg sizes l).size.2 ≤ cfg.texture_size.2
  disjoint : pk.layouts.Pairwise (fun l1 l2 =>
      (paddedRect cfg sizes l1).has_intersection (paddedRect cfg sizes l2) =
        false)
  buckets : bucketInv pk.regions
  freeOk : ∀ r ∈ pk.regions.allRects,
      0 < r.size.1 ∧ 0 < r.size.2 ∧
      r.position.1 + r.size.1 ≤ cfg.texture_size.1 ∧
      r.position.2 + r.size.2 ≤ cfg.texture_size.2 ∧
      ∀ l ∈ pk.layouts, r.has_intersection (paddedRect cfg sizes l) = false

/-! Basic characterisations of the rectangle predicates. -/

/-- The doubled-centre test of the source is the open-interior overlap
test. -/
lemma has_intersection_iff (A B : Rect) :
    A.has_intersection B = true ↔
      (B.position.1 < A.position.1 + A.size.1 ∧
       A.position.1 < B.position.1 + B.size.1 ∧
       B.position.2 < A.position.2 + A.size.2 ∧
       A.position.2 < B.position.2 + B.size.2) := by
  simp only [Rect.has_intersection, Bool.and_eq_true, decide_eq_true_eq]
  constructor
  · intro ⟨hx, hy⟩
    constructor
    · split at hx <;> omega
    refine ⟨?_, ?_, ?_⟩
    · split at hx <;> omega
    · split at hy <;> omega
    · split at hy <;> omega
  · intro h
    constructor
    · split <;> omega
    · split <;> omega

/-- `Rect.includes` is componentwise interval containment. -/
lemma includes_iff (A B : Rect) :
    A.includes B = true ↔
      (A.position.1 ≤ B.position.1 ∧
       B.position.1 + B.size.1 ≤ A.position.1 + A.size.1 ∧
       A.position.2 ≤ B.position.2 ∧
       B.position.2 + B.size.2 ≤ A.position.2 + A.size.2) := by
  simp only [Rect.includes, decide_eq_true_eq]

/-- Intersection is symmetric. -/
lemma has_intersection_comm (A B : Rect) :
    A.has_intersection B = B.has_intersection A := by
  by_cases h : A.has_intersection B = true
  · have h' := (has_intersection_iff A B).mp h
    rw [h, Eq.comm, has_intersection_iff]
    tauto
  · rw [Bool.not_eq_true] at h
    rw [h, Eq.comm, Bool.eq_false_iff, Ne, has_intersection_iff]
    rw [Bool.eq_false_iff, Ne, has_intersection_iff] at h
    tauto

/-- Intersection is monotone under containment: if `A` contains `x` and
`x` meets `P` then `A` meets `P`. -/
lemma has_intersection_of_includes (A x P : Rect)
    (hinc : A.includes x = true) (hint : x.has_intersection P = true) :
    A.has_intersection P = true := by
  rw [includes_iff] at hinc
  rw [has_intersection_iff] at hint ⊢
  omega

/-! Properties of `Rect.divide`. -/

/-- Negated form of the open-overlap characterisation. -/
lemma has_intersection_eq_false_iff (A B : Rect) :
    A.has_intersection B = false ↔
      ¬(B.position.1 < A.position.1 + A.size.1 ∧
        A.position.1 < B.position.1 + B.size.1 ∧
        B.position.2 < A.position.2 + A.size.2 ∧
        A.position.2 < B.position.2 + B.size.2) := by
  rw [← has_intersection_iff]
  cases h : A.has_intersection B <;> simp

set_option maxHeartbeats 1000000 in
/-- Every rectangle produced by `divide` lies inside the parent, does not
intersect the cut, and is positive whenever the parent is. -/
lemma divide_mem_props (S C r : Rect) (h : r ∈ S.divide C) :
    S.includes r = true ∧ r.has_intersection C = false ∧
    (0 < S.size.1 → 0 < S.size.2 → 0 < r.size.1 ∧ 0 < r.size.2) := by
  simp only [Rect.divide] at h
  split_ifs at h <;>
    fin_cases h <;>
    refine ⟨?_, ?_, fun hS1 hS2 => ?_⟩ <;>
    simp only [includes_iff, has_intersection_eq_false_iff] <;>
    (try omega)
  all_goals simp_all [has_intersection_eq_false_iff]

set_option maxHeartbeats 1000000 in
/-- `divide` never returns more than four rectangles. -/
lemma divide_length_le (S C : Rect) : (S.divide C).length ≤ 4 := by
  simp only [Rect.divide]
  split_ifs <;> simp

set_option maxHeartbeats 1600000 in
/-- When the parent intersects the cut, the rectangles returned by
`divide` cover exactly the points of the parent outside the cut. -/
lemma divide_covers (S C : Rect) (hint : S.has_intersection C = true)
    (p : Nat × Nat) :
    (∃ r ∈ S.divide C, r.containsPt p) ↔
      (S.containsPt p ∧ ¬ C.containsPt p) := by
  rw [has_intersection_iff] at hint
  simp only [Rect.divide, Rect.containsPt]
  split_ifs <;>
    (try simp) <;>
    (try omega)
  all_goals simp_all [has_intersection_eq_false_iff]

/-! Claim C8: the intersection predicate. -/

/-- C8: `has_intersection(A, B)` holds exactly when the open interiors
overlap, i.e. `A.x + A.w > B.x ∧ B.x + B.w > A.x ∧ A.y + A.h > B.y ∧
B.y + B.h > A.y`; consequently rectangles that merely touch along a
vertical or horizontal edge do not intersect. -/
theorem C8_has_intersection_iff_open_overlap :
    ∀ A B : Rect,
      (A.has_intersection B = true ↔
        (A.position.1 + A.size.1 > B.position.1 ∧
         B.position.1 + B.size.1 > A.position.1 ∧
         A.position.2 + A.size.2 > B.position.2 ∧
         B.position.2 + B.size.2 > A.position.2)) ∧
      (A.position.1 + A.size.1 = B.position.1 →
        A.has_intersection B = false) ∧
      (A.position.2 + A.size.2 = B.position.2 →
        A.has_intersection B = false) := by
  intro A B
  refine ⟨?_, ?_, ?_⟩
  · exact has_intersection_iff A B
  · intro h
    rw [has_intersection_eq_false_iff]
    omega
  · intro h
    rw [has_intersection_eq_false_iff]
    omega

/-- Witness for C8: two rectangles touching along an edge
(`A = [0,2)×[0,3)`, `B = [2,6)×[0,4)`) do not intersect. -/
theorem C8_witness :
    (⟨(2, 3), (0, 0)⟩ : Rect).has_intersection ⟨(4, 4), (2, 0)⟩ = false :=
  (C8_has_intersection_iff_open_overlap ⟨(2, 3), (0, 0)⟩ ⟨(4, 4), (2, 0)⟩).2.1
    rfl

deriving instance DecidableEq for Except

/-! Claim C5: the rotation scenario of the spec. -/

/-- C5 counterexample: `pack` with texture `(10,20)`, spacing `0`,
rotation enabled, applied to the single size `(20,10)` does not succeed at
all, contrary to the claim: the call is rejected by the per-size
validation. -/
theorem C5_counterexample :
    (Packer.pack ⟨(10, 20), 0, true⟩ [(20, 10)]).isOk = false := by decide

/-- C5 amended: that call returns the image-too-large error, because the
validation in `Packer::pack` compares the raw (un-rotated) size against
the texture size before rotation is ever considered. -/
theorem C5_amended_error :
    Packer.pack ⟨(10, 20), 0, true⟩ [(20, 10)] =
      .error "pack failed. image size larger than texture size." := by decide

/-! Claim C7: correctness of `divide` (the spec's `subtract`). -/

/-- C7 counterexample: for the non-intersecting pair
`S = [0,2)×[0,10)`, `C = [5,6)×[3,5)` (both with positive sizes), the top
and bottom guards fire, `divide` returns only those two strips, and the
point `(0,4) ∈ S \ C` is covered by neither — so the returned union is
not all of `S \ C`, contradicting the claim. -/
theorem C7_counterexample :
    Rect.divide ⟨(2, 10), (0, 0)⟩ ⟨(1, 2), (5, 3)⟩ =
      [⟨(2, 3), (0, 0)⟩, ⟨(2, 5), (0, 5)⟩] ∧
    (⟨(2, 10), (0, 0)⟩ : Rect).has_intersection ⟨(1, 2), (5, 3)⟩ = false ∧
    Rect.containsPt ⟨(2, 10), (0, 0)⟩ (0, 4) ∧
    ¬ Rect.containsPt ⟨(1, 2), (5, 3)⟩ (0, 4) ∧
    ∀ r ∈ Rect.divide ⟨(2, 10), (0, 0)⟩ ⟨(1, 2), (5, 3)⟩,
      ¬ r.containsPt (0, 4) := by decide

/-- C7 amended: `divide` returns at most four rectangles, and whenever `S`
and `C` have positive sizes and `S` intersects `C`, the union of the
returned rectangles (half-open reading) is exactly the set of points of
`S` not contained in `C`; in particular an `S` fully contained in `C`
yields the empty set of points. -/
theorem C7_divide_subtracts :
    ∀ S C : Rect,
      (S.divide C).length ≤ 4 ∧
      (0 < S.size.1 → 0 < S.size.2 → S.has_intersection C = true →
        ∀ p : Nat × Nat,
          ((∃ r ∈ S.divide C, r.containsPt p) ↔
            (S.containsPt p ∧ ¬ C.containsPt p))) :=
  fun S C =>
    ⟨divide_length_le S C, fun _ _ hint p => divide_covers S C hint p⟩

/-- Witness for C7 at `S = [0,4)×[0,4)`, `C = [1,3)×[1,3)`, point
`(0,2)`. -/
theorem C7_witness :
    ((⟨(4, 4), (0, 0)⟩ : Rect).divide ⟨(2, 2), (1, 1)⟩).length ≤ 4 ∧
    ((∃ r ∈ (⟨(4, 4), (0, 0)⟩ : Rect).divide ⟨(2, 2), (1, 1)⟩,
        r.containsPt (0, 2)) ↔
      (Rect.containsPt ⟨(4, 4), (0, 0)⟩ (0, 2) ∧
       ¬ Rect.containsPt ⟨(2, 2), (1, 1)⟩ (0, 2))) :=
  ⟨(C7_divide_subtracts ⟨(4, 4), (0, 0)⟩ ⟨(2, 2), (1, 1)⟩).1,
   (C7_divide_subtracts ⟨(4, 4), (0, 0)⟩ ⟨(2, 2), (1, 1)⟩).2
     (by decide) (by decide) (by decide) (0, 2)⟩

lemma mem_allRects (rg : Regions) (x : Rect) :
    x ∈ rg.allRects ↔ ∃ p ∈ rg.regions, ∃ q ∈ p.2, x ∈ q.2 := by
  simp [Regions.allRects, List.mem_flatMap]

/-! Membership and bucket lemmas for the free-space index operations. -/

lemma innerAdd_mem (w : Nat) (r : Rect) (v : List (Nat × List Rect))
    (q' : Nat × List Rect) (hq' : q' ∈ Regions.innerAdd w r v)
    (r' : Rect) (hr' : r' ∈ q'.2) :
    (∃ q ∈ v, q'.1 = q.1 ∧ r' ∈ q.2) ∨ (q'.1 = w ∧ r' = r) := by
  induction v with
  | nil =>
      simp only [Regions.innerAdd, List.mem_singleton] at hq'
      subst hq'
      simp only [List.mem_singleton] at hr'
      exact Or.inr ⟨rfl, hr'⟩
  | cons kv rest ih =>
      simp only [Regions.innerAdd] at hq'
      split_ifs at hq' with h1 h2
      · rcases List.mem_cons.mp hq' with h | h
        · subst h
          simp only [List.mem_singleton] at hr'
          exact Or.inr ⟨rfl, hr'⟩
        · exact Or.inl ⟨q', h, rfl, hr'⟩
      · rcases List.mem_cons.mp hq' with h | h
        · subst h
          rcases List.mem_append.mp hr' with h' | h'
          · exact Or.inl ⟨kv, List.mem_cons_self _ _, h2 ▸ rfl, h'⟩
          · simp only [List.mem_singleton] at h'
            exact Or.inr ⟨h2 ▸ rfl, h'⟩
        · exact Or.inl ⟨q', List.mem_cons_of_mem _ h, rfl, hr'⟩
      · rcases List.mem_cons.mp hq' with h | h
        · subst h
          exact Or.inl ⟨kv, List.mem_cons_self _ _, rfl, hr'⟩
        · rcases ih h with h' | h'
          · obtain ⟨q, hqmem, hq1, hrq⟩ := h'
            exact Or.inl ⟨q, List.mem_cons_of_mem _ hqmem, hq1, hrq⟩
          · exact Or.inr h'

lemma outerAdd_mem (a w : Nat) (r : Rect)
    (m : List (Nat × List (Nat × List Rect)))
    (p' : Nat × List (Nat × List Rect)) (hp' : p' ∈ Regions.outerAdd a w r m)
    (q' : Nat × List Rect) (hq' : q' ∈ p'.2) (r' : Rect) (hr' : r' ∈ q'.2) :
    (∃ p ∈ m, p'.1 = p.1 ∧ ∃ q ∈ p.2, q'.1 = q.1 ∧ r' ∈ q.2) ∨
      (p'.1 = a ∧ q'.1 = w ∧ r' = r) := by
  induction m with
  | nil =>
      simp only [Regions.outerAdd, List.mem_singleton] at hp'
      subst hp'
      simp only [List.mem_singleton] at hq'
      subst hq'
      simp only [List.mem_singleton] at hr'
      exact Or.inr ⟨rfl, rfl, hr'⟩
  | cons kv rest ih =>
      simp only [Regions.outerAdd] at hp'
      split_ifs at hp' with h1 h2
      · rcases List.mem_cons.mp hp' with h | h
        · subst h
          simp only [List.mem_singleton] at hq'
          subst hq'
          simp only [List.mem_singleton] at hr'
          exact Or.inr ⟨rfl, rfl, hr'⟩
        · exact Or.inl ⟨p', h, rfl, q', hq', rfl, hr'⟩
      · rcases List.mem_cons.mp hp' with h | h
        · subst h
          rcases innerAdd_mem w r kv.2 q' hq' r' hr' with h' | h'
          · obtain ⟨q, hqmem, hq1, hrq⟩ := h'
            exact Or.inl ⟨kv, List.mem_cons_self _ _, h2 ▸ rfl, q, hqmem, hq1, hrq⟩
          · exact Or.inr ⟨h2 ▸ rfl, h'⟩
        · exact Or.inl ⟨p', List.mem_cons_of_mem _ h, rfl, q', hq', rfl, hr'⟩
      · rcases List.mem_cons.mp hp' with h | h
        · subst h
          exact Or.inl ⟨kv, List.mem_cons_self _ _, rfl, q', hq', rfl, hr'⟩
        · rcases ih h with h' | h'
          · obtain ⟨p, hpmem, hp1, rest'⟩ := h'
            exact Or.inl ⟨p, List.mem_cons_of_mem _ hpmem, hp1, rest'⟩
          · exact Or.inr h'

lemma add_mem (s : Regions) (nr x : Rect) (hx : x ∈ (s.add nr).allRects) :
    x ∈ s.allRects ∨ x = nr := by
  simp only [Regions.add] at hx
  split_ifs at hx with hdom
  · exact Or.inl hx
  · rw [mem_allRects] at hx
    obtain ⟨p', hp', q', hq', hr'⟩ := hx
    rcases outerAdd_mem _ _ _ _ p' hp' q' hq' x hr' with h | h
    · obtain ⟨p, hpmem, _, q, hqmem, _, hrq⟩ := h
      exact Or.inl ((mem_allRects s x).mpr ⟨p, hpmem, q, hqmem, hrq⟩)
    · exact Or.inr h.2.2

lemma add_bucketInv (s : Regions) (nr : Rect) (hb : bucketInv s) :
    bucketInv (s.add nr) := by
  intro p' hp' q' hq' r' hr'
  simp only [Regions.add] at hp'
  split_ifs at hp' with hdom
  · exact hb p' hp' q' hq' r' hr'
  · rcases outerAdd_mem _ _ _ _ p' hp' q' hq' r' hr' with h | h
    · obtain ⟨p, hpmem, hp1, q, hqmem, hq1, hrq⟩ := h
      rw [hp1, hq1]
      exact hb p hpmem q hqmem r' hrq
    · obtain ⟨ha, hw, hr⟩ := h
      subst hr
      exact ⟨hw.symm ▸ rfl, ha.symm ▸ rfl⟩

lemma mem_insertAreaDesc (r x : Rect) (l : List Rect) :
    x ∈ insertAreaDesc r l ↔ x = r ∨ x ∈ l := by
  induction l with
  | nil => simp [insertAreaDesc]
  | cons y ys ih =>
      simp only [insertAreaDesc]
      split_ifs with h
      · simp [List.mem_cons]
      · simp only [List.mem_cons, ih]
        tauto

lemma mem_sortByAreaDesc (x : Rect) (l : List Rect) :
    x ∈ sortByAreaDesc l ↔ x ∈ l := by
  induction l with
  | nil => simp [sortByAreaDesc]
  | cons y ys ih =>
      simp only [sortByAreaDesc, mem_insertAreaDesc, List.mem_cons, ih]

lemma foldl_add_mem (l : List Rect) (s : Regions) (x : Rect)
    (hx : x ∈ (l.foldl Regions.add s).allRects) :
    x ∈ s.allRects ∨ x ∈ l := by
  induction l generalizing s with
  | nil => exact Or.inl hx
  | cons y ys ih =>
      simp only [List.foldl_cons] at hx
      rcases ih (s.add y) hx with h | h
      · rcases add_mem s y x h with h' | h'
        · exact Or.inl h'
        · exact Or.inr (h' ▸ List.mem_cons_self _ _)
      · exact Or.inr (List.mem_cons_of_mem _ h)

lemma foldl_add_bucketInv (l : List Rect) (s : Regions) (hb : bucketInv s) :
    bucketInv (l.foldl Regions.add s) := by
  induction l generalizing s with
  | nil => exact hb
  | cons y ys ih => exact ih (s.add y) (add_bucketInv s y hb)

lemma mem_alistRange {β : Type} (k : Nat) (m : List (Nat × β)) (p : Nat × β)
    (h : p ∈ alistRange k m) : p ∈ m ∧ k ≤ p.1 := by
  have := List.mem_filter.mp h
  exact ⟨this.1, of_decide_eq_true this.2⟩

lemma exclude_mem (s : Regions) (c x : Rect)
    (hx : x ∈ (s.exclude c).allRects) :
    (x ∈ s.allRects ∧ x.has_intersection c = false) ∨
    (∃ par ∈ s.allRects, par.has_intersection c = true ∧ x ∈ par.divide c) := by
  simp only [Regions.exclude] at hx
  rcases foldl_add_mem _ _ _ hx with h | h
  · left
    rw [mem_allRects] at h
    obtain ⟨p', hp', q', hq', hxq⟩ := h
    rw [List.mem_filter] at hp'
    obtain ⟨hp', _⟩ := hp'
    rw [List.mem_map] at hp'
    obtain ⟨p0, hp0, rfl⟩ := hp'
    rw [List.mem_filter] at hq'
    obtain ⟨hq', _⟩ := hq'
    rw [List.mem_map] at hp0
    obtain ⟨p, hp, rfl⟩ := hp0
    simp only at hq'
    rw [List.mem_map] at hq'
    obtain ⟨q, hq, rfl⟩ := hq'
    rw [List.mem_filter] at hxq
    obtain ⟨hxq, hni⟩ := hxq
    refine ⟨(mem_allRects s x).mpr ⟨p, hp, q, hq, hxq⟩, ?_⟩
    simpa using hni
  · right
    rw [mem_sortByAreaDesc] at h
    rw [List.mem_flatMap] at h
    obtain ⟨p, hp, h⟩ := h
    rw [List.mem_flatMap] at h
    obtain ⟨q, hq, h⟩ := h
    rw [List.mem_flatMap] at h
    obtain ⟨r, hr, h⟩ := h
    by_cases hint : r.has_intersection c
    · rw [if_pos hint] at h
      exact ⟨r, (mem_allRects s r).mpr ⟨p, hp, q, hq, hr⟩, hint, h⟩
    · rw [if_neg hint] at h
      exact absurd h (List.not_mem_nil x)

lemma exclude_bucketInv (s : Regions) (c : Rect) (hb : bucketInv s) :
    bucketInv (s.exclude c) := by
  simp only [Regions.exclude]
  apply foldl_add_bucketInv
  intro p' hp' q' hq' r' hr'
  rw [List.mem_filter] at hp'
  obtain ⟨hp', _⟩ := hp'
  rw [List.mem_map] at hp'
  obtain ⟨p0, hp0, rfl⟩ := hp'
  rw [List.mem_filter] at hq'
  obtain ⟨hq', _⟩ := hq'
  rw [List.mem_map] at hp0
  obtain ⟨p, hp, rfl⟩ := hp0
  simp only at hq'
  rw [List.mem_map] at hq'
  obtain ⟨q, hq, rfl⟩ := hq'
  rw [List.mem_filter] at hr'
  obtain ⟨hr', _⟩ := hr'
  exact hb p hp q hq r' hr'

lemma mem_of_head_some {α : Type} {l : List α} {a : α}
    (h : l.head? = some a) : a ∈ l := by
  cases l with
  | nil => simp at h
  | cons x t =>
      simp only [List.head?_cons, Option.some_inj] at h
      subst h
      exact List.mem_cons_self _ _

lemma find_space_mem (rg : Regions) (hb : bucketInv rg) (sz : Nat × Nat)
    (R : Rect) (h : rg.find_space sz = some R) :
    R ∈ rg.allRects ∧ sz.1 ≤ R.size.1 ∧
      sz.2 * R.size.1 ≤ R.size.1 * R.size.2 := by
  simp only [Regions.find_space] at h
  obtain ⟨p, hp, hfp⟩ := List.exists_of_findSome?_eq_some h
  obtain ⟨hpm, hpk⟩ := mem_alistRange _ _ _ hp
  rw [Option.bind_eq_some] at hfp
  obtain ⟨q, hfind, hhead⟩ := hfp
  have hqpred := List.find?_some hfind
  have hqmem := List.mem_of_find?_eq_some hfind
  obtain ⟨hqm, hqk⟩ := mem_alistRange _ _ _ hqmem
  rw [Option.map_eq_some'] at hhead
  obtain ⟨r0, hr0, hR⟩ := hhead
  have hr0mem : r0 ∈ q.2 := mem_of_head_some hr0
  have hReq : R = r0 := hR.symm
  subst hReq
  simp only [Bool.and_eq_true, decide_eq_true_eq] at hqpred
  obtain ⟨⟨_, hw⟩, harea⟩ := hqpred
  have hbk := hb p hpm q hqm R hr0mem
  refine ⟨(mem_allRects rg R).mpr ⟨p, hpm, q, hqm, hr0mem⟩, ?_, ?_⟩
  · rw [hbk.1]; exact hw
  · rw [hbk.2, hbk.1]; exact harea

/-- The bucket invariant holds on the initial index. -/
lemma bucketInv_new (ts : Nat × Nat) : bucketInv (Regions.new ts) := by
  intro p hp q hq r hr
  simp only [Regions.new, List.mem_singleton] at hp
  subst hp
  simp only [List.mem_singleton] at hq
  subst hq
  simp only [List.mem_singleton] at hr
  subst hr
  exact ⟨rfl, rfl⟩

/-- The bucket invariant holds on every reachable index state. -/
lemma reachable_bucketInv (init : Nat × Nat) (s : Regions)
    (h : Regions.Reachable init s) : bucketInv s := by
  induction h with
  | base => exact bucketInv_new init
  | add s r _ ih => exact add_bucketInv s r ih
  | exclude s r _ ih => exact exclude_bucketInv s r ih

/-! Claim C6: the `find_space` guarantee on reachable index states. -/

/-- C6 counterexample: from `new((10,10))`, inserting the zero-width
rectangle `{(20,20),(0,5)}` (not dominated, so it is indexed under bucket
`(0,0)`), the query `(0,7)` returns that rectangle even though its height
`5` is smaller than the queried height `7` — so `find` can return a rect
that is not tall enough, contrary to the claim. -/
theorem C6_counterexample :
    Regions.Reachable (10, 10)
      ((Regions.new (10, 10)).add ⟨(0, 5), (20, 20)⟩) ∧
    ((Regions.new (10, 10)).add ⟨(0, 5), (20, 20)⟩).find_space (0, 7) =
      some ⟨(0, 5), (20, 20)⟩ ∧
    ¬ (7 ≤ (⟨(0, 5), (20, 20)⟩ : Rect).size.2) :=
  ⟨Regions.Reachable.add _ _ Regions.Reachable.base, by decide, by decide⟩

/-- C6 amended: on every reachable index state, `find_space (w, h)` either
returns `none` or returns a currently indexed rect `R` with `R.w ≥ w`;
and provided additionally `w > 0` (or trivially `h = 0`), also `R.h ≥ h`.
The height guarantee can only fail when a zero-width rectangle is indexed
and the query width is zero. -/
theorem C6_find_space_spec :
    ∀ (init : Nat × Nat) (s : Regions), Regions.Reachable init s →
    ∀ (w h : Nat) (R : Rect), s.find_space (w, h) = some R →
      R ∈ s.allRects ∧ w ≤ R.size.1 ∧ ((0 < w ∨ h = 0) → h ≤ R.size.2) := by
  intro init s hreach w h R hfind
  have hb := reachable_bucketInv init s hreach
  obtain ⟨hmem, hw, harea⟩ := find_space_mem s hb (w, h) R hfind
  refine ⟨hmem, hw, ?_⟩
  rintro (hpos | rfl)
  · have hR1 : 0 < R.size.1 := lt_of_lt_of_le hpos hw
    rw [Nat.mul_comm R.size.1 R.size.2] at harea
    exact Nat.le_of_mul_le_mul_right harea hR1
  · exact Nat.zero_le _

/-- Witness for C6 at the freshly created index and the query `(3, 4)`. -/
theorem C6_witness :
    (⟨(10, 10), (0, 0)⟩ : Rect) ∈ (Regions.new (10, 10)).allRects ∧
    3 ≤ (⟨(10, 10), (0, 0)⟩ : Rect).size.1 ∧
    ((0 < 3 ∨ 4 = 0) → 4 ≤ (⟨(10, 10), (0, 0)⟩ : Rect).size.2) :=
  C6_find_space_spec (10, 10) _ Regions.Reachable.base 3 4
    ⟨(10, 10), (0, 0)⟩ (by decide)

lemma exclude_no_intersect (s : Regions) (c x : Rect)
    (hx : x ∈ (s.exclude c).allRects) : x.has_intersection c = false := by
  rcases exclude_mem s c x hx with ⟨_, h⟩ | ⟨par, _, _, hdiv⟩
  · exact h
  · exact (divide_mem_props par c x hdiv).2.1

lemma effSize_eq (sizes : List (Nat × Nat)) (i : Nat) (pos : Nat × Nat)
    (rot : Bool) (sz : Nat × Nat) (hget : sizes[i]? = some sz) :
    effSize sizes ⟨i, pos, rot⟩ = if rot then (sz.2, sz.1) else sz := by
  simp [effSize, hget]

lemma place_preserves (cfg : Packer) (sizes : List (Nat × Nat)) (pk : Packed)
    (inv : PackedInv cfg sizes pk) (i : Nat) (rot : Bool) (e sz : Nat × Nat)
    (hget : sizes[i]? = some sz)
    (he : e = if rot then (sz.2, sz.1) else sz)
    (he1 : e.1 ≤ cfg.texture_size.1) (he2 : e.2 ≤ cfg.texture_size.2)
    (space : Rect)
    (hfind : pk.regions.find_space (cfg.size_with_spacing e) = some space) :
    PackedInv cfg sizes
      ⟨pk.layouts ++ [⟨i, space.position, rot⟩],
       pk.regions.exclude ⟨cfg.size_with_spacing e, space.position⟩⟩ := by
  obtain ⟨hmem, hw, harea⟩ := find_space_mem _ inv.buckets _ _ hfind
  obtain ⟨hS1, hS2, hSbin1, hSbin2, hSfar⟩ := inv.freeOk space hmem
  have hsws2 : (cfg.size_with_spacing e).2 ≤ space.size.2 := by
    rw [Nat.mul_comm space.size.1 space.size.2] at harea
    exact Nat.le_of_mul_le_mul_right harea hS1
  have heff : effSize sizes ⟨i, space.position, rot⟩ = e := by
    rw [effSize_eq sizes i space.position rot sz hget, he]
  have hpadded : paddedRect cfg sizes ⟨i, space.position, rot⟩ =
      ⟨cfg.size_with_spacing e, space.position⟩ := by
    rw [paddedRect, heff]
  have hPinc : space.includes ⟨cfg.size_with_spacing e, space.position⟩ =
      true := by
    rw [includes_iff]
    refine ⟨le_refl _, ?_, le_refl _, ?_⟩ <;> simp only [] <;> omega
  refine ⟨?_, ?_, ?_, ?_, ?_⟩
  · intro l hl
    rcases List.mem_append.mp hl with h | h
    · exact inv.layoutOk l h
    · rw [List.mem_singleton] at h
      subst h
      exact ⟨sz, hget, heff ▸ he1, heff ▸ he2⟩
  · intro l hl
    rcases List.mem_append.mp hl with h | h
    · exact inv.contained l h
    · rw [List.mem_singleton] at h
      subst h
      rw [hpadded]
      simp only []
      omega
  · rw [List.pairwise_append]
    refine ⟨inv.disjoint, List.pairwise_singleton _ _, ?_⟩
    intro a ha b hb
    rw [List.mem_singleton] at hb
    subst hb
    rw [hpadded]
    cases hx : (paddedRect cfg sizes a).has_intersection
        ⟨cfg.size_with_spacing e, space.position⟩ with
    | false => rfl
    | true =>
        exfalso
        rw [has_intersection_comm] at hx
        have h2 := has_intersection_of_includes space _ _ hPinc hx
        rw [hSfar a ha] at h2
        exact Bool.false_ne_true h2
  · exact exclude_bucketInv _ _ inv.buckets
  · intro r hr
    rcases exclude_mem _ _ r hr with ⟨hrold, hnint⟩ | ⟨par, hparmem, hparint, hdiv⟩
    · obtain ⟨h1, h2, h3, h4, h5⟩ := inv.freeOk r hrold
      refine ⟨h1, h2, h3, h4, ?_⟩
      intro l hl
      rcases List.mem_append.mp hl with h | h
      · exact h5 l h
      · rw [List.mem_singleton] at h
        subst h
        rw [hpadded]
        exact hnint
    · obtain ⟨hp1, hp2, hp3, hp4, hp5⟩ := inv.freeOk par hparmem
      obtain ⟨hinc, hncut, hpos⟩ := divide_mem_props par _ r hdiv
      obtain ⟨hr1, hr2⟩ := hpos hp1 hp2
      have hincp := (includes_iff par r).mp hinc
      refine ⟨hr1, hr2, by omega, by omega, ?_⟩
      intro l hl
      rcases List.mem_append.mp hl with h | h
      · cases hx : r.has_intersection (paddedRect cfg sizes l) with
        | false => rfl
        | true =>
            exfalso
            have := has_intersection_of_includes par _ _ hinc hx
            rw [hp5 l h] at this
            exact Bool.false_ne_true this
      · rw [List.mem_singleton] at h
        subst h
        rw [hpadded]
        exact hncut

lemma packedInv_new (cfg : Packer) (sizes : List (Nat × Nat))
    (hcfg : cfg.validCfg) : PackedInv cfg sizes (Packed.new cfg.texture_size) := by
  obtain ⟨h1, h2, h3, h4, h5, h6⟩ := hcfg
  refine ⟨?_, ?_, ?_, ?_, ?_⟩
  · intro l hl; exact absurd hl (List.not_mem_nil l)
  · intro l hl; exact absurd hl (List.not_mem_nil l)
  · exact List.Pairwise.nil
  · exact bucketInv_new cfg.texture_size
  · intro r hr
    simp only [Packed.new] at hr
    rw [mem_allRects] at hr
    obtain ⟨p, hp, q, hq, hrq⟩ := hr
    simp only [Regions.new, List.mem_singleton] at hp
    subst hp
    simp only [List.mem_singleton] at hq
    subst hq
    simp only [List.mem_singleton] at hrq
    subst hrq
    refine ⟨h1, h2, ?_, ?_, fun l hl => absurd hl (List.not_mem_nil l)⟩
    · show 0 + cfg.texture_size.1 ≤ cfg.texture_size.1
      omega
    · show 0 + cfg.texture_size.2 ≤ cfg.texture_size.2
      omega

lemma find_space_new (ts p : Nat × Nat) (h1 : p.1 ≤ ts.1) (h2 : p.2 ≤ ts.2) :
    (Regions.new ts).find_space p = some ⟨ts, (0, 0)⟩ := by
  have harea : p.1 * p.2 ≤ ts.1 * ts.2 := Nat.mul_le_mul h1 h2
  have hsec : p.2 * ts.1 ≤ ts.1 * ts.2 := by
    calc p.2 * ts.1 ≤ ts.2 * ts.1 := Nat.mul_le_mul_right ts.1 h2
    _ = ts.1 * ts.2 := Nat.mul_comm ts.2 ts.1
  simp [Regions.find_space, Regions.new, alistRange, List.findSome?, harea, h1,
    h2, hsec, List.find?]

lemma try_pack_one_fresh (cfg : Packer) (i : Nat) (sz : Nat × Nat) :
    cfg.try_pack_one (Packed.new cfg.texture_size) i sz =
      (true,
       ⟨[⟨i, (0, 0), false⟩],
        (Regions.new cfg.texture_size).exclude
          ⟨cfg.size_with_spacing sz, (0, 0)⟩⟩) := by
  have hfind := find_space_new cfg.texture_size (cfg.size_with_spacing sz)
    (by simp [Packer.size_with_spacing]) (by simp [Packer.size_with_spacing])
  simp only [Packer.try_pack_one, Packed.new, hfind, List.nil_append]

lemma try_pack_one_spec (cfg : Packer) (sizes : List (Nat × Nat))
    (pk : Packed) (inv : PackedInv cfg sizes pk) (i : Nat) (sz : Nat × Nat)
    (hget : sizes[i]? = some sz)
    (hsz1 : sz.1 ≤ cfg.texture_size.1) (hsz2 : sz.2 ≤ cfg.texture_size.2) :
    ((cfg.try_pack_one pk i sz).1 = false →
      (cfg.try_pack_one pk i sz).2 = pk) ∧
    ((cfg.try_pack_one pk i sz).1 = true →
      PackedInv cfg sizes (cfg.try_pack_one pk i sz).2 ∧
      ∃ pos rot, (cfg.try_pack_one pk i sz).2.layouts =
        pk.layouts ++ [⟨i, pos, rot⟩]) := by
  cases hf1 : pk.regions.find_space (cfg.size_with_spacing sz) with
  | some space =>
      simp only [Packer.try_pack_one, hf1]
      refine ⟨fun h => absurd h (by simp), fun _ => ⟨?_, space.position, false, rfl⟩⟩
      exact place_preserves cfg sizes pk inv i false sz sz hget rfl hsz1 hsz2
        space hf1
  | none =>
      by_cases hg : cfg.enable_rotate = true ∧ sz.2 ≤ cfg.texture_size.1 ∧
          sz.1 ≤ cfg.texture_size.2
      · cases hf2 : pk.regions.find_space (cfg.size_with_spacing (sz.2, sz.1)) with
        | some space =>
            simp only [Packer.try_pack_one, hf1, if_pos hg, hf2]
            refine ⟨fun h => absurd h (by simp),
              fun _ => ⟨?_, space.position, true, rfl⟩⟩
            exact place_preserves cfg sizes pk inv i true (sz.2, sz.1) sz hget
              rfl hg.2.1 hg.2.2 space hf2
        | none =>
            simp only [Packer.try_pack_one, hf1, if_pos hg, hf2]
            simp
      · simp only [Packer.try_pack_one, hf1, if_neg hg]
        simp

lemma packLoop_spec (cfg : Packer) (sizes : List (Nat × Nat))
    (hcfg : cfg.validCfg) :
    ∀ (rest : List (Nat × Nat)) (idx : Nat) (results : List Packed)
      (current : Packed),
      (∀ j sz, rest[j]? = some sz → sizes[idx + j]? = some sz) →
      (∀ sz ∈ rest, sz.1 ≤ cfg.texture_size.1 ∧ sz.2 ≤ cfg.texture_size.2) →
      (∀ pk ∈ results ++ [current], PackedInv cfg sizes pk) →
      (((results ++ [current]).flatMap Packed.layouts).map Layout.index =
        List.range idx) →
      ∃ results' current',
        cfg.packLoop rest idx results current = .ok (results', current') ∧
        (∀ pk ∈ results' ++ [current'], PackedInv cfg sizes pk) ∧
        (((results' ++ [current']).flatMap Packed.layouts).map Layout.index =
          List.range (idx + rest.length)) := by
  intro rest
  induction rest with
  | nil =>
      intro idx results current _ _ hinv hflat
      exact ⟨results, current, rfl, hinv, by simpa using hflat⟩
  | cons sz tail ih =>
      intro idx results current hsuffix hok hinv hflat
      have hsz := hok sz (List.mem_cons_self _ _)
      have hget : sizes[idx]? = some sz := by
        have h0 := hsuffix 0 sz (by simp)
        simpa using h0
      have hsuffix' : ∀ j sz', tail[j]? = some sz' →
          sizes[(idx + 1) + j]? = some sz' := by
        intro j sz' hj
        have := hsuffix (j + 1) sz' (by simpa using hj)
        have harith : idx + (j + 1) = (idx + 1) + j := by omega
        rwa [harith] at this
      have hok' : ∀ sz' ∈ tail, sz'.1 ≤ cfg.texture_size.1 ∧
          sz'.2 ≤ cfg.texture_size.2 :=
        fun sz' h => hok sz' (List.mem_cons_of_mem _ h)
      have hvalid : ¬(sz.1 > cfg.texture_size.1 ∨ sz.2 > cfg.texture_size.2) := by
        omega
      have hcurinv : PackedInv cfg sizes current := hinv current (by simp)
      have hspec := try_pack_one_spec cfg sizes current hcurinv idx sz hget
        hsz.1 hsz.2
      have hlen : idx + (sz :: tail).length = (idx + 1) + tail.length := by
        simp; omega
      rw [hlen]
      cases hb : (cfg.try_pack_one current idx sz).1 with
      | true =>
          obtain ⟨hinv', pos, rot, hlay⟩ := hspec.2 hb
          simp only [Packer.packLoop, if_neg hvalid, hb, if_true]
          apply ih (idx + 1) results (cfg.try_pack_one current idx sz).2
            hsuffix' hok'
          · intro pk hpk
            rcases List.mem_append.mp hpk with h | h
            · exact hinv pk (List.mem_append.mpr (Or.inl h))
            · rw [List.mem_singleton] at h
              subst h
              exact hinv'
          · rw [List.flatMap_append, List.map_append] at hflat ⊢
            simp only [List.flatMap_cons, List.flatMap_nil, List.append_nil]
              at hflat ⊢
            rw [hlay, List.map_append, List.range_succ, ← hflat]
            simp
      | false =>
          have hunch := hspec.1 hb
          have hfresh := try_pack_one_fresh cfg idx sz
          have hnewinv := packedInv_new cfg sizes hcfg
          have hspec2 := try_pack_one_spec cfg sizes
            (Packed.new cfg.texture_size) hnewinv idx sz hget hsz.1 hsz.2
          have hb2 : (cfg.try_pack_one (Packed.new cfg.texture_size) idx sz).1 =
              true := by rw [hfresh]
          obtain ⟨hinv2, pos2, rot2, hlay2⟩ := hspec2.2 hb2
          simp only [Packer.packLoop, if_neg hvalid, hb, if_false]
          apply ih (idx + 1) (results ++ [current])
            (cfg.try_pack_one (Packed.new cfg.texture_size) idx sz).2
            hsuffix' hok'
          · intro pk hpk
            rcases List.mem_append.mp hpk with h | h
            · exact hinv pk h
            · rw [List.mem_singleton] at h
              subst h
              exact hinv2
          · rw [List.flatMap_append, List.map_append]
            simp only [List.flatMap_cons, List.flatMap_nil, List.append_nil]
            rw [hlay2, List.range_succ, ← hflat]
            simp [Packed.new]

lemma pack_ok_master (cfg : Packer) (sizes : List (Nat × Nat))
    (hcfg : cfg.validCfg)
    (hsz : ∀ sz ∈ sizes,
      sz.1 ≤ cfg.texture_size.1 ∧ sz.2 ≤ cfg.texture_size.2) :
    ∃ (pks : List Packed),
      cfg.pack sizes = .ok (pks.map Packed.layouts) ∧
      (∀ pk ∈ pks, PackedInv cfg sizes pk) ∧
      ((pks.flatMap Packed.layouts).map Layout.index =
        List.range sizes.length) := by
  obtain ⟨results', current', hloop, hinvs, hflat⟩ :=
    packLoop_spec cfg sizes hcfg sizes 0 [] (Packed.new cfg.texture_size)
      (by intro j sz hj; simpa using hj)
      hsz
      (by
        intro pk hpk
        simp only [List.nil_append, List.mem_singleton] at hpk
        subst hpk
        exact packedInv_new cfg sizes hcfg)
      (by simp [Packed.new])
  obtain ⟨h1, h2, h3, h4, h5, h6⟩ := hcfg
  have hc1 : ¬(cfg.texture_size.1 = 0 ∨ cfg.texture_size.2 = 0 ∨
      cfg.texture_size.1 > MAX_TEXTURE_SIZE ∨
      cfg.texture_size.2 > MAX_TEXTURE_SIZE) := by omega
  have hc2 : ¬(cfg.spacing ≥ cfg.texture_size.1 ∨
      cfg.spacing ≥ cfg.texture_size.2) := by omega
  simp only [Nat.zero_add] at hflat
  by_cases hemp : current'.layouts.isEmpty
  · refine ⟨results', ?_, ?_, ?_⟩
    · simp only [Packer.pack, if_neg hc1, if_neg hc2, hloop, hemp,
        Bool.not_true, Bool.false_eq_true, if_false]
    · intro pk hpk
      exact hinvs pk (List.mem_append.mpr (Or.inl hpk))
    · have hce : current'.layouts = [] := List.isEmpty_iff.mp hemp
      rw [List.flatMap_append] at hflat
      simp only [List.flatMap_cons, List.flatMap_nil, List.append_nil, hce]
        at hflat
      simpa using hflat
  · refine ⟨results' ++ [current'], ?_, hinvs, hflat⟩
    simp only [Packer.pack, if_neg hc1, if_neg hc2, hloop]
    rw [Bool.not_eq_true] at hemp
    simp only [hemp, Bool.not_false, if_true]

lemma packLoop_error (cfg : Packer) :
    ∀ (rest : List (Nat × Nat)) (idx : Nat) (results : List Packed)
      (current : Packed),
      (∃ sz ∈ rest, sz.1 > cfg.texture_size.1 ∨ sz.2 > cfg.texture_size.2) →
      ∃ e, cfg.packLoop rest idx results current = .error e := by
  intro rest
  induction rest with
  | nil =>
      rintro idx results current ⟨sz, h, _⟩
      exact absurd h (List.not_mem_nil _)
  | cons sz tail ih =>
      rintro idx results current ⟨sz', hmem, hbad⟩
      by_cases hv : sz.1 > cfg.texture_size.1 ∨ sz.2 > cfg.texture_size.2
      · exact ⟨"pack failed. image size larger than texture size.",
          by simp only [Packer.packLoop, if_pos hv]⟩
      · rcases List.mem_cons.mp hmem with rfl | hmem'
        · exact absurd hbad hv
        · cases hb : (cfg.try_pack_one current idx sz).1 with
          | true =>
              have := ih (idx + 1) results (cfg.try_pack_one current idx sz).2
                ⟨sz', hmem', hbad⟩
              obtain ⟨e, he⟩ := this
              exact ⟨e, by simp only [Packer.packLoop, if_neg hv, hb, if_true,
                he]⟩
          | false =>
              have := ih (idx + 1) (results ++ [current])
                (cfg.try_pack_one (Packed.new cfg.texture_size) idx sz).2
                ⟨sz', hmem', hbad⟩
              obtain ⟨e, he⟩ := this
              exact ⟨e, by simp only [Packer.packLoop, if_neg hv, hb,
                Bool.false_eq_true, if_false, he]⟩

lemma min_eq_or (a b : Nat) : min a b = a ∨ min a b = b := by
  rcases Nat.le_total a b with h | h
  · exact Or.inl (Nat.min_eq_left h)
  · exact Or.inr (Nat.min_eq_right h)

set_option maxHeartbeats 1600000 in
theorem C1_no_overlap :
    ∀ (cfg : Packer) (sizes : List (Nat × Nat)) (bins : List (List Layout)),
      cfg.validCfg →
      (∀ sz ∈ sizes, sz.1 ≤ cfg.texture_size.1 ∧ sz.2 ≤ cfg.texture_size.2) →
      cfg.pack sizes = .ok bins →
      ∀ bin ∈ bins, ∀ l1 ∈ bin, ∀ l2 ∈ bin, l1 ≠ l2 →
        (unclampedRect cfg sizes l1).has_intersection
          (unclampedRect cfg sizes l2) = false := by
  intro cfg sizes bins hcfg hsz hpack bin hbin l1 hl1 l2 hl2 hne
  obtain ⟨pks, hpk, hinvs, -⟩ := pack_ok_master cfg sizes hcfg hsz
  obtain ⟨hW, hH, -, -, -, -⟩ := hcfg
  rw [hpack] at hpk
  injection hpk with hbins
  subst hbins
  rw [List.mem_map] at hbin
  obtain ⟨pk, hpkmem, hbl⟩ := hbin
  subst hbl
  have inv := hinvs pk hpkmem
  have hsym : Symmetric (fun a b : Layout =>
      (paddedRect cfg sizes a).has_intersection (paddedRect cfg sizes b) =
        false) := by
    intro a b h
    rw [has_intersection_comm]
    exact h
  have hzfalse := inv.disjoint.forall hsym hl1 hl2 hne
  cases hx : (unclampedRect cfg sizes l1).has_intersection
      (unclampedRect cfg sizes l2) with
  | false => rfl
  | true =>
      exfalso
      rw [has_intersection_iff] at hx
      rw [has_intersection_eq_false_iff] at hzfalse
      obtain ⟨sz1, hg1, he11, he12⟩ := inv.layoutOk l1 hl1
      obtain ⟨sz2, hg2, he21, he22⟩ := inv.layoutOk l2 hl2
      have hc1 := inv.contained l1 hl1
      have hc2 := inv.contained l2 hl2
      simp only [unclampedRect] at hx
      simp only [paddedRect, Packer.size_with_spacing] at hzfalse hc1 hc2
      rcases min_eq_or ((effSize sizes l1).1 + cfg.spacing)
          cfg.texture_size.1 with m1 | m1 <;>
      rcases min_eq_or ((effSize sizes l2).1 + cfg.spacing)
          cfg.texture_size.1 with m2 | m2 <;>
      rcases min_eq_or ((effSize sizes l1).2 + cfg.spacing)
          cfg.texture_size.2 with m3 | m3 <;>
      rcases min_eq_or ((effSize sizes l2).2 + cfg.spacing)
          cfg.texture_size.2 with m4 | m4 <;>
      simp only [m1, m2, m3, m4] at hzfalse hc1 hc2 <;>
      omega

theorem C3_containment :
    ∀ (cfg : Packer) (sizes : List (Nat × Nat)) (bins : List (List Layout)),
      cfg.validCfg →
      (∀ sz ∈ sizes, sz.1 ≤ cfg.texture_size.1 ∧ sz.2 ≤ cfg.texture_size.2) →
      cfg.pack sizes = .ok bins →
      ∀ bin ∈ bins, ∀ l ∈ bin,
        l.position.1 + (effSize sizes l).1 ≤ cfg.texture_size.1 ∧
        l.position.2 + (effSize sizes l).2 ≤ cfg.texture_size.2 := by
  intro cfg sizes bins hcfg hsz hpack bin hbin l hl
  obtain ⟨pks, hpk, hinvs, -⟩ := pack_ok_master cfg sizes hcfg hsz
  rw [hpack] at hpk
  injection hpk with hbins
  subst hbins
  rw [List.mem_map] at hbin
  obtain ⟨pk, hpkmem, hbl⟩ := hbin
  subst hbl
  have inv := hinvs pk hpkmem
  obtain ⟨sz1, hg1, he1, he2⟩ := inv.layoutOk l hl
  have hc := inv.contained l hl
  simp only [paddedRect, Packer.size_with_spacing] at hc
  rcases min_eq_or ((effSize sizes l).1 + cfg.spacing)
      cfg.texture_size.1 with m1 | m1 <;>
  rcases min_eq_or ((effSize sizes l).2 + cfg.spacing)
      cfg.texture_size.2 with m2 | m2 <;>
  simp only [m1, m2] at hc <;>
  omega

theorem C2_pack_complete :
    ∀ (cfg : Packer) (sizes : List (Nat × Nat)),
      cfg.validCfg →
      (∀ sz ∈ sizes, sz.1 ≤ cfg.texture_size.1 ∧ sz.2 ≤ cfg.texture_size.2) →
      (∃ bins, cfg.pack sizes = .ok bins ∧
        bins.flatten.length = sizes.length ∧
        bins.flatten.map Layout.index = List.range sizes.length) ∧
      (∀ (i : Nat) (sz : Nat × Nat), sz.1 ≤ cfg.texture_size.1 →
        sz.2 ≤ cfg.texture_size.2 →
        (cfg.try_pack_one (Packed.new cfg.texture_size) i sz).1 = true) := by
  intro cfg sizes hcfg hsz
  constructor
  · obtain ⟨pks, hpk, -, hflat⟩ := pack_ok_master cfg sizes hcfg hsz
    refine ⟨pks.map Packed.layouts, hpk, ?_, ?_⟩
    · rw [← List.flatMap_def]
      have hlen := congrArg List.length hflat
      rw [List.length_map, List.length_range] at hlen
      exact hlen
    · rw [← List.flatMap_def]
      exact hflat
  · intro i sz h1 h2
    rw [try_pack_one_fresh cfg i sz]

theorem C4_error_iff :
    ∀ (cfg : Packer) (sizes : List (Nat × Nat)),
      (∃ e, cfg.pack sizes = .error e) ↔
        (cfg.texture_size.1 = 0 ∨ cfg.texture_size.2 = 0 ∨
         cfg.texture_size.1 > MAX_TEXTURE_SIZE ∨
         cfg.texture_size.2 > MAX_TEXTURE_SIZE ∨
         cfg.spacing ≥ cfg.texture_size.1 ∨
         cfg.spacing ≥ cfg.texture_size.2 ∨
         ∃ sz ∈ sizes, sz.1 > cfg.texture_size.1 ∨
           sz.2 > cfg.texture_size.2) := by
  intro cfg sizes
  constructor
  · rintro ⟨e, he⟩
    by_contra hnot
    push_neg at hnot
    obtain ⟨hn1, hn2, hn3, hn4, hn5, hn6, hn7⟩ := hnot
    have hcfg : cfg.validCfg := by
      refine ⟨?_, ?_, ?_, ?_, ?_, ?_⟩ <;> omega
    have hsz : ∀ sz ∈ sizes,
        sz.1 ≤ cfg.texture_size.1 ∧ sz.2 ≤ cfg.texture_size.2 := by
      intro sz hmem
      have := hn7 sz hmem
      omega
    obtain ⟨pks, hpk, -, -⟩ := pack_ok_master cfg sizes hcfg hsz
    rw [he] at hpk
    exact Except.noConfusion hpk
  · intro h
    by_cases hb1 : cfg.texture_size.1 = 0 ∨ cfg.texture_size.2 = 0 ∨
        cfg.texture_size.1 > MAX_TEXTURE_SIZE ∨
        cfg.texture_size.2 > MAX_TEXTURE_SIZE
    · exact ⟨"bad texture size.", by simp only [Packer.pack, if_pos hb1]⟩
    · by_cases hb2 : cfg.spacing ≥ cfg.texture_size.1 ∨
          cfg.spacing ≥ cfg.texture_size.2
      · exact ⟨"spacing too large.",
          by simp only [Packer.pack, if_neg hb1, if_pos hb2]⟩
      · have hbad : ∃ sz ∈ sizes, sz.1 > cfg.texture_size.1 ∨
            sz.2 > cfg.texture_size.2 := by
          rcases h with h | h | h | h | h | h | h
          · exact absurd (Or.inl h) hb1
          · exact absurd (Or.inr (Or.inl h)) hb1
          · exact absurd (Or.inr (Or.inr (Or.inl h))) hb1
          · exact absurd (Or.inr (Or.inr (Or.inr h))) hb1
          · exact absurd (Or.inl h) hb2
          · exact absurd (Or.inr h) hb2
          · exact h
        obtain ⟨e, he⟩ := packLoop_error cfg sizes 0 []
          (Packed.new cfg.texture_size) hbad
        exact ⟨e, by simp only [Packer.pack, if_neg hb1, if_neg hb2, he]⟩

theorem C9_positive_rects :
    (∀ (cfg : Packer) (sizes : List (Nat × Nat)) (bins : List (List Layout)),
       cfg.validCfg →
       (∀ sz ∈ sizes, 0 < sz.1 ∧ 0 < sz.2 ∧ sz.1 ≤ cfg.texture_size.1 ∧
         sz.2 ≤ cfg.texture_size.2) →
       cfg.pack sizes = .ok bins →
       ∀ bin ∈ bins, ∀ l ∈ bin,
         0 < (cfg.size_with_spacing (effSize sizes l)).1 ∧
         0 < (cfg.size_with_spacing (effSize sizes l)).2) ∧
    (∀ (rg : Regions) (c : Rect),
       (∀ r ∈ rg.allRects, 0 < r.size.1 ∧ 0 < r.size.2) →
       ∀ r ∈ (rg.exclude c).allRects, 0 < r.size.1 ∧ 0 < r.size.2) ∧
    (∀ S C : Rect, 0 < S.size.1 → 0 < S.size.2 →
       ∀ r ∈ S.divide C, 0 < r.size.1 ∧ 0 < r.size.2) := by
  refine ⟨?_, ?_, ?_⟩
  · intro cfg sizes bins hcfg hsz hpack bin hbin l hl
    have hsz' : ∀ sz ∈ sizes,
        sz.1 ≤ cfg.texture_size.1 ∧ sz.2 ≤ cfg.texture_size.2 := by
      intro sz hmem
      have := hsz sz hmem
      exact ⟨this.2.2.1, this.2.2.2⟩
    obtain ⟨pks, hpk, hinvs, -⟩ := pack_ok_master cfg sizes hcfg hsz'
    obtain ⟨hW, hH, -, -, -, -⟩ := hcfg
    rw [hpack] at hpk
    injection hpk with hbins
    subst hbins
    rw [List.mem_map] at hbin
    obtain ⟨pk, hpkmem, hbl⟩ := hbin
    subst hbl
    have inv := hinvs pk hpkmem
    obtain ⟨sz1, hg1, -, -⟩ := inv.layoutOk l hl
    have hmem : sz1 ∈ sizes := List.getElem?_mem hg1
    obtain ⟨hp1, hp2, -, -⟩ := hsz sz1 hmem
    have heff : effSize sizes l = if l.rotated then (sz1.2, sz1.1) else sz1 := by
      simp [effSize, hg1]
    have hepos : 0 < (effSize sizes l).1 ∧ 0 < (effSize sizes l).2 := by
      rw [heff]
      cases l.rotated <;> simp <;> omega
    simp only [Packer.size_with_spacing]
    rcases min_eq_or ((effSize sizes l).1 + cfg.spacing)
        cfg.texture_size.1 with m1 | m1 <;>
    rcases min_eq_or ((effSize sizes l).2 + cfg.spacing)
        cfg.texture_size.2 with m2 | m2 <;>
    simp only [m1, m2] <;> omega
  · intro rg c hpos r hr
    rcases exclude_mem rg c r hr with ⟨hrold, -⟩ | ⟨par, hparmem, -, hdiv⟩
    · exact hpos r hrold
    · obtain ⟨hp1, hp2⟩ := hpos par hparmem
      exact (divide_mem_props par c r hdiv).2.2 hp1 hp2
  · intro S C h1 h2 r hr
    exact (divide_mem_props S C r hr).2.2 h1 h2

theorem C10_zero_inputs_accepted :
    ∀ (cfg : Packer) (sizes : List (Nat × Nat)),
      cfg.validCfg →
      (∀ sz ∈ sizes, sz.1 ≤ cfg.texture_size.1 ∧ sz.2 ≤ cfg.texture_size.2) →
      (∃ bins, cfg.pack sizes = .ok bins ∧
        ∀ (i : Nat) (sz : Nat × Nat), sizes[i]? = some sz →
          (sz.1 = 0 ∨ sz.2 = 0) →
          (bins.flatten.map Layout.index).count i = 1) ∧
      (∀ (i : Nat) (sz : Nat × Nat), sz.1 ≤ cfg.texture_size.1 →
        sz.2 ≤ cfg.texture_size.2 → (sz.1 = 0 ∨ sz.2 = 0) →
        (cfg.try_pack_one (Packed.new cfg.texture_size) i sz).1 = true) := by
  intro cfg sizes hcfg hsz
  constructor
  · obtain ⟨pks, hpk, -, hflat⟩ := pack_ok_master cfg sizes hcfg hsz
    refine ⟨pks.map Packed.layouts, hpk, ?_⟩
    intro i sz hget hzero
    have hi : i < sizes.length := by
      by_contra hlt
      rw [List.getElem?_eq_none (by omega)] at hget
      exact Option.noConfusion hget
    rw [← List.flatMap_def, hflat]
    exact List.count_eq_one_of_mem (List.nodup_range _)
      (List.mem_range.mpr hi)
  · intro i sz h1 h2 hzero
    rw [try_pack_one_fresh cfg i sz]

theorem C9_counterexample :
    Packer.pack ⟨(10, 10), 0, false⟩ [(0, 5)] =
      .ok [[⟨0, (0, 0), false⟩]] ∧
    (Packer.size_with_spacing ⟨(10, 10), 0, false⟩ (0, 5)).1 = 0 := by decide

theorem C1_witness :
    (unclampedRect ⟨(10, 10), 0, false⟩ [(10, 5), (10, 5)]
        ⟨0, (0, 0), false⟩).has_intersection
      (unclampedRect ⟨(10, 10), 0, false⟩ [(10, 5), (10, 5)]
        ⟨1, (0, 5), false⟩) = false :=
  C1_no_overlap ⟨(10, 10), 0, false⟩ [(10, 5), (10, 5)]
    [[⟨0, (0, 0), false⟩, ⟨1, (0, 5), false⟩]] (by decide) (by decide)
    (by decide) [⟨0, (0, 0), false⟩, ⟨1, (0, 5), false⟩] (by decide)
    ⟨0, (0, 0), false⟩ (by decide) ⟨1, (0, 5), false⟩ (by decide) (by decide)

theorem C2_witness :
    (∃ bins, Packer.pack ⟨(10, 10), 0, false⟩ [(10, 5), (3, 3)] = .ok bins ∧
      bins.flatten.length = 2 ∧
      bins.flatten.map Layout.index = List.range 2) ∧
    (∀ (i : Nat) (sz : Nat × Nat), sz.1 ≤ 10 → sz.2 ≤ 10 →
      ((⟨(10, 10), 0, false⟩ : Packer).try_pack_one
        (Packed.new (10, 10)) i sz).1 = true) :=
  C2_pack_complete ⟨(10, 10), 0, false⟩ [(10, 5), (3, 3)] (by decide)
    (by decide)

theorem C3_witness :
    (⟨0, (0, 0), false⟩ : Layout).position.1 +
      (effSize [(10, 5), (10, 5)] ⟨0, (0, 0), false⟩).1 ≤ 10 ∧
    (⟨0, (0, 0), false⟩ : Layout).position.2 +
      (effSize [(10, 5), (10, 5)] ⟨0, (0, 0), false⟩).2 ≤ 10 :=
  C3_containment ⟨(10, 10), 0, false⟩ [(10, 5), (10, 5)]
    [[⟨0, (0, 0), false⟩, ⟨1, (0, 5), false⟩]] (by decide) (by decide)
    (by decide) [⟨0, (0, 0), false⟩, ⟨1, (0, 5), false⟩] (by decide)
    ⟨0, (0, 0), false⟩ (by decide)

theorem C4_witness :
    ∃ e, Packer.pack ⟨(10, 10), 0, false⟩ [(20, 5)] = .error e :=
  (C4_error_iff ⟨(10, 10), 0, false⟩ [(20, 5)]).mpr (by decide)

theorem C9_witness :
    0 < ((⟨(10, 10), 0, false⟩ : Packer).size_with_spacing
      (effSize [(2, 3)] ⟨0, (0, 0), false⟩)).1 ∧
    0 < ((⟨(10, 10), 0, false⟩ : Packer).size_with_spacing
      (effSize [(2, 3)] ⟨0, (0, 0), false⟩)).2 :=
  C9_positive_rects.1 ⟨(10, 10), 0, false⟩ [(2, 3)] [[⟨0, (0, 0), false⟩]]
    (by decide) (by decide) (by decide) [⟨0, (0, 0), false⟩] (by decide)
    ⟨0, (0, 0), false⟩ (by decide)

theorem C10_witness :
    (∃ bins, Packer.pack ⟨(10, 10), 0, false⟩ [(0, 5)] = .ok bins ∧
      ∀ (i : Nat) (sz : Nat × Nat), [(0, 5)][i]? = some sz →
        (sz.1 = 0 ∨ sz.2 = 0) →
        (bins.flatten.map Layout.index).count i = 1) ∧
    (∀ (i : Nat) (sz : Nat × Nat), sz.1 ≤ 10 → sz.2 ≤ 10 →
      (sz.1 = 0 ∨ sz.2 = 0) →
      ((⟨(10, 10), 0, false⟩ : Packer).try_pack_one
        (Packed.new (10, 10)) i sz).1 = true) :=
  C10_zero_inputs_accepted ⟨(10, 10), 0, false⟩ [(0, 5)] (by decide)
    (by decide)

end ImagePacker
